import Mathlib

/-!
Verification of the PS3EYEDriver streaming core (src/src/ps3eye.cpp).

This file shallowly embeds the three components the claims are about:

* `FrameQueue` — the frame ring buffer (`FrameQueue::FrameQueue`,
  `FrameQueue::Enqueue`, `FrameQueue::Dequeue`, ps3eye.cpp lines 674-764).
  Slot pointers are modelled as byte offsets from `frame_buffer`
  (the code returns `frame_buffer + head * frame_size`).
* `URBState` with `frame_add` / `pkt_scan_unit` / `pkt_scan` — the packet
  reassembly state machine (`URBDesc::frame_add` lines 888-931,
  `URBDesc::pkt_scan` lines 933-1004).  The bytes written by `memcpy`
  into the current frame slot are mirrored by the ghost field `acc`
  (the contiguous prefix written since `cur_frame_data_len` was last
  reset), the trace of `frame_queue->Enqueue()` calls by the ghost field
  `frames` (one entry per call, holding the accumulated content at that
  call), and the total number of payload bytes copied by `memcpy` by the
  ghost field `write_count`.
* `ShutdownStep` — an interleaving model of the semaphore protocol of
  `URBDesc::close_transfers` (lines 838-860) and
  `transfer_completed_callback` (lines 1024-1051).
-/

/-! ## Frame ring buffer -/

/-- State of the `FrameQueue` ring buffer: `frame_size` and `num_frames`
are fixed at construction; `alloc_bytes` is the size in bytes of the
`frame_buffer` allocation made by the constructor; `head` is the slot the
producer currently writes to, `tail` the next slot the consumer reads,
`available` the number of unread complete frames. -/
structure FrameQueue where
  frame_size : Nat
  num_frames : Nat
  alloc_bytes : Nat
  head : Nat
  tail : Nat
  available : Nat
  deriving DecidableEq, Repr

/-- The `FrameQueue` constructor: the `num_frames` member is clamped with
`std::max(num_frames, 2u)`, but the `malloc(frame_size * num_frames)` in
the member-initializer list is evaluated in the constructor's scope, where
the parameters shadow the members — so the allocation uses the *unclamped*
requested depth. `head = tail = available = 0`. -/
def mkFrameQueue (frame_size num_frames : Nat) : FrameQueue :=
  { frame_size := frame_size
    num_frames := max num_frames 2
    alloc_bytes := frame_size * num_frames
    head := 0
    tail := 0
    available := 0 }

/-- `FrameQueue::Enqueue`: if the buffer already holds `num_frames - 1`
unread frames, return the current write slot (byte offset
`head * frame_size`) unchanged; otherwise advance `head`, increment
`available` and return the new write slot. -/
def FrameQueue.Enqueue (q : FrameQueue) : Nat × FrameQueue :=
  if q.num_frames - 1 ≤ q.available then
    (q.head * q.frame_size, q)
  else
    let head := (q.head + 1) % q.num_frames
    (head * q.frame_size, { q with head := head, available := q.available + 1 })

/-- `FrameQueue::Dequeue`: blocks while `available = 0` (modelled as
`none`); otherwise copies the slot at `tail` (returned as its byte
offset), advances `tail` and decrements `available`. -/
def FrameQueue.Dequeue (q : FrameQueue) : Option (Nat × FrameQueue) :=
  if q.available = 0 then none
  else some (q.tail * q.frame_size,
    { q with tail := (q.tail + 1) % q.num_frames, available := q.available - 1 })

/-- An operation performed on the ring buffer by the producer or consumer. -/
inductive QueueOp where
  | enq : QueueOp
  | deq : QueueOp
  deriving DecidableEq, Repr

/-- Run a sequence of operations; a `deq` on an empty buffer blocks, so it
leaves the state unchanged until some enqueue happens. -/
def runOps (q : FrameQueue) : List QueueOp → FrameQueue
  | [] => q
  | QueueOp.enq :: ops => runOps q.Enqueue.2 ops
  | QueueOp.deq :: ops =>
      runOps (match q.Dequeue with
              | none => q
              | some (_, q2) => q2) ops

/-- Iterate `Enqueue` n times, keeping only the state. -/
def enqueueTimes (q : FrameQueue) : Nat → FrameQueue
  | 0 => q
  | n + 1 => (enqueueTimes q n).Enqueue.2

/-- The pointer (byte offset) returned by the n-th consecutive `Enqueue`
call (n ≥ 1), with no intervening `Dequeue`. -/
def enqueueRet (q : FrameQueue) (n : Nat) : Nat :=
  (enqueueTimes q (n - 1)).Enqueue.1

lemma enqueue_num_frames (q : FrameQueue) : q.Enqueue.2.num_frames = q.num_frames := by
  unfold FrameQueue.Enqueue
  split <;> rfl

lemma enqueue_available_le (q : FrameQueue)
    (h : q.available ≤ q.num_frames - 1) :
    q.Enqueue.2.available ≤ q.num_frames - 1 := by
  unfold FrameQueue.Enqueue
  split <;> simp_all <;> omega

lemma dequeue_available_le (q : FrameQueue)
    (h : q.available ≤ q.num_frames - 1) :
    (match q.Dequeue with
     | none => q
     | some (_, q2) => q2).available ≤ q.num_frames - 1 := by
  by_cases h0 : q.available = 0
  · simp [FrameQueue.Dequeue, h0]
  · simp [FrameQueue.Dequeue, h0]
    omega

lemma dequeue_num_frames (q : FrameQueue) :
    (match q.Dequeue with
     | none => q
     | some (_, q2) => q2).num_frames = q.num_frames := by
  by_cases h0 : q.available = 0
  · simp [FrameQueue.Dequeue, h0]
  · simp [FrameQueue.Dequeue, h0]

lemma runOps_invariant (ops : List QueueOp) (q : FrameQueue)
    (h : q.available ≤ q.num_frames - 1) :
    (runOps q ops).available ≤ q.num_frames - 1 ∧
      (runOps q ops).num_frames = q.num_frames := by
  induction ops generalizing q with
  | nil => exact ⟨h, rfl⟩
  | cons op ops ih =>
      cases op with
      | enq =>
          have h1 := enqueue_available_le q h
          have h2 := enqueue_num_frames q
          have := ih q.Enqueue.2 (by rw [h2]; exact h1)
          simpa [runOps, h2] using this
      | deq =>
          have h1 := dequeue_available_le q h
          have h2 := dequeue_num_frames q
          have := ih (match q.Dequeue with
                      | none => q
                      | some (_, q2) => q2) (by rw [h2]; exact h1)
          simpa [runOps, h2] using this

/-- C1: for a `FrameQueue` constructed with capacity `N ≥ 2`, over every
sequence of `Enqueue`/`Dequeue` operations the `available` counter never
exceeds `N - 1`; moreover `Enqueue` increments `available` exactly when
`available < N - 1`, and `Dequeue` decrements it exactly when it is
positive (blocking otherwise). -/
theorem frameQueue_available_bounded (fs N : Nat) (hN : 2 ≤ N) :
    (∀ ops : List QueueOp, (runOps (mkFrameQueue fs N) ops).available ≤ N - 1) ∧
    (∀ q : FrameQueue,
      (q.Enqueue.2.available = q.available + 1 ↔ q.available < q.num_frames - 1)) ∧
    (∀ q : FrameQueue, q.Dequeue = none ↔ q.available = 0) ∧
    (∀ q : FrameQueue, ∀ p : Nat, ∀ q2 : FrameQueue,
      q.Dequeue = some (p, q2) → q2.available = q.available - 1 ∧ 0 < q.available) := by
  refine ⟨?_, ?_, ?_, ?_⟩
  · intro ops
    have hmax : (mkFrameQueue fs N).num_frames = N := by
      simp [mkFrameQueue]
      omega
    have := runOps_invariant ops (mkFrameQueue fs N) (by simp [mkFrameQueue])
    rw [hmax] at this
    exact this.1
  · intro q
    unfold FrameQueue.Enqueue
    split <;> simp_all <;> omega
  · intro q
    unfold FrameQueue.Dequeue
    split <;> simp_all
  · intro q p q2 hq
    unfold FrameQueue.Dequeue at hq
    split at hq
    · exact absurd hq (by simp)
    · simp at hq
      constructor
      · rw [← hq.2]
      · omega

/-- Witness for C1 at concrete inputs: capacity 2, and a concrete dequeue. -/
theorem frameQueue_available_bounded_witness :
    (2 ≤ 2 ∧ (runOps (mkFrameQueue 1 2) [QueueOp.enq, QueueOp.enq, QueueOp.enq]).available ≤ 2 - 1) ∧
    ((⟨1, 3, 3, 1, 0, 1⟩ : FrameQueue).Dequeue = some (0, ⟨1, 3, 3, 1, 1, 0⟩) →
      (⟨1, 3, 3, 1, 1, 0⟩ : FrameQueue).available = (⟨1, 3, 3, 1, 0, 1⟩ : FrameQueue).available - 1 ∧
      0 < (⟨1, 3, 3, 1, 0, 1⟩ : FrameQueue).available) :=
  ⟨⟨by decide, (frameQueue_available_bounded 1 2 (by decide)).1 _⟩,
   (frameQueue_available_bounded 1 3 (by decide)).2.2.2 _ 0 _⟩

/-- C3: when `Enqueue` is called with `available` already at
`num_frames - 1`, it returns the current write slot and leaves the state
(hence `head`, `tail`, `available`) unchanged; concretely, on a queue of
capacity 3 the 3rd, 4th and 5th consecutive `Enqueue` calls all return the
slot at offset `2 * frame_size` and `available` stays at 2. -/
theorem enqueue_full_returns_current_slot :
    (∀ q : FrameQueue, q.num_frames - 1 ≤ q.available →
      q.Enqueue = (q.head * q.frame_size, q)) ∧
    (∀ fs : Nat,
      enqueueRet (mkFrameQueue fs 3) 3 = 2 * fs ∧
      enqueueRet (mkFrameQueue fs 3) 4 = 2 * fs ∧
      enqueueRet (mkFrameQueue fs 3) 5 = 2 * fs ∧
      (enqueueTimes (mkFrameQueue fs 3) 3).available = 2 ∧
      (enqueueTimes (mkFrameQueue fs 3) 4).available = 2 ∧
      (enqueueTimes (mkFrameQueue fs 3) 5).available = 2) := by
  constructor
  · intro q h
    unfold FrameQueue.Enqueue
    simp [h]
  · intro fs
    refine ⟨?_, ?_, ?_, ?_, ?_, ?_⟩ <;>
      simp [enqueueRet, enqueueTimes, mkFrameQueue, FrameQueue.Enqueue]

/-- Witness for C3: the full-buffer clause applied at a concrete state. -/
theorem enqueue_full_returns_current_slot_witness :
    (⟨1, 3, 3, 2, 0, 2⟩ : FrameQueue).Enqueue = (2 * 1, ⟨1, 3, 3, 2, 0, 2⟩) :=
  enqueue_full_returns_current_slot.1 ⟨1, 3, 3, 2, 0, 2⟩ (by decide)

/-- C4 counterexample: on a capacity-3 queue after two `Enqueue` calls the
buffer is full (`available = num_frames - 1`); the slot the next `Enqueue`
hands back for overwriting is the producer's current write slot (offset 2),
not the slot of the oldest not-yet-dequeued frame, which sits at `tail`
(offset 0). -/
theorem enqueue_overwrite_slot_is_not_oldest :
    (enqueueTimes (mkFrameQueue 1 3) 2).available =
      (enqueueTimes (mkFrameQueue 1 3) 2).num_frames - 1 ∧
    (enqueueTimes (mkFrameQueue 1 3) 2).Enqueue.1 = 2 ∧
    (enqueueTimes (mkFrameQueue 1 3) 2).tail * (enqueueTimes (mkFrameQueue 1 3) 2).frame_size = 0 ∧
    (enqueueTimes (mkFrameQueue 1 3) 2).Enqueue.1 ≠
      (enqueueTimes (mkFrameQueue 1 3) 2).tail * (enqueueTimes (mkFrameQueue 1 3) 2).frame_size := by
  decide

/-- C4 (amended): when the ring buffer is full, the producer's next write
reuses the producer's *current* write slot (offset `head * frame_size`),
overwriting the most recently written frame; the state is unchanged, so the
oldest undelivered frame at `tail` is untouched, and the producer is never
blocked (`Enqueue` always returns a slot). -/
theorem enqueue_full_overwrites_newest (q : FrameQueue)
    (h : q.num_frames - 1 ≤ q.available) :
    q.Enqueue.1 = q.head * q.frame_size ∧
    q.Enqueue.2.tail = q.tail ∧
    q.Enqueue.2.head = q.head ∧
    q.Enqueue.2.available = q.available := by
  unfold FrameQueue.Enqueue
  simp [h]

/-- Witness for the amended C4 at a concrete full queue. -/
theorem enqueue_full_overwrites_newest_witness :
    (⟨4, 3, 12, 2, 0, 2⟩ : FrameQueue).Enqueue.1 = 2 * 4 ∧
    (⟨4, 3, 12, 2, 0, 2⟩ : FrameQueue).Enqueue.2.tail = 0 ∧
    (⟨4, 3, 12, 2, 0, 2⟩ : FrameQueue).Enqueue.2.head = 2 ∧
    (⟨4, 3, 12, 2, 0, 2⟩ : FrameQueue).Enqueue.2.available = 2 :=
  enqueue_full_overwrites_newest ⟨4, 3, 12, 2, 0, 2⟩ (by decide)

/-- C9 (code bug): the constructor clamps the `num_frames` member to
`max(d, 2)`, but the `malloc` in the member-initializer list uses the
shadowing constructor parameters and so allocates `frame_size * d` bytes
with the unclamped requested depth: at depth 1 with frame size 4 only one
slot's worth of bytes is allocated while the ring logic uses 2 slots, and
at depth 0 nothing is allocated at all — the claimed `max(d, 2)`-slot
allocation does not happen. -/
theorem mkFrameQueue_alloc_uses_unclamped_depth :
    (mkFrameQueue 4 1).num_frames = 2 ∧
    (mkFrameQueue 4 1).alloc_bytes = 4 ∧
    (mkFrameQueue 4 1).alloc_bytes <
      (mkFrameQueue 4 1).num_frames * (mkFrameQueue 4 1).frame_size ∧
    (mkFrameQueue 4 0).num_frames = 2 ∧
    (mkFrameQueue 4 0).alloc_bytes = 0 ∧
    (∀ fs d : Nat, (mkFrameQueue fs d).num_frames = max d 2 ∧
      (mkFrameQueue fs d).alloc_bytes = fs * d) := by
  exact ⟨rfl, rfl, by decide, rfl, rfl, fun fs d => ⟨rfl, rfl⟩⟩

/-! ## Packet reassembly state machine -/

/-- The gspca packet classification used by `frame_add` / `pkt_scan`. -/
inductive GspcaPacketType where
  | DISCARD_PACKET : GspcaPacketType
  | FIRST_PACKET : GspcaPacketType
  | INTER_PACKET : GspcaPacketType
  | LAST_PACKET : GspcaPacketType
  deriving DecidableEq, Repr

open GspcaPacketType

/-- Reassembly state of a `URBDesc`: the fields `last_packet_type`,
`last_pts`, `last_fid`, `cur_frame_data_len` and `frame_size` are the
members of the C++ class; `acc` is a ghost mirror of the bytes `memcpy`
has written into the current frame slot since `cur_frame_data_len` was
last reset (so `acc` is the slot's written prefix), `frames` is the ghost
trace of `frame_queue->Enqueue()` calls (the accumulated content at each
call), and `write_count` counts every payload byte copied by `memcpy`. -/
structure URBState where
  last_packet_type : GspcaPacketType
  last_pts : Nat
  last_fid : Nat
  cur_frame_data_len : Nat
  frame_size : Nat
  acc : List Nat
  frames : List (List Nat)
  write_count : Nat
  deriving DecidableEq, Repr

/-- Reassembly state right after `URBDesc`'s constructor and
`start_transfers`: discard classification, zero timestamp and toggle,
empty accumulator. -/
def initURBState (frame_size : Nat) : URBState :=
  { last_packet_type := DISCARD_PACKET
    last_pts := 0
    last_fid := 0
    cur_frame_data_len := 0
    frame_size := frame_size
    acc := []
    frames := []
    write_count := 0 }

/-- Append-and-finalize tail of `URBDesc::frame_add` (the code after the
classification gate): append the payload unless it would overflow
`frame_size` (in which case the packet is reclassified as discard and the
accumulator reset), record the classification, and on a final packet push
the accumulated content to the frame queue (`Enqueue`) and reset. -/
def frame_add_body (s : URBState) (packet_type : GspcaPacketType)
    (data : List Nat) : URBState :=
  let step :=
    if 0 < data.length then
      if s.frame_size < s.cur_frame_data_len + data.length then
        ({ s with cur_frame_data_len := 0, acc := [] }, DISCARD_PACKET)
      else
        ({ s with acc := s.acc ++ data,
                  cur_frame_data_len := s.cur_frame_data_len + data.length,
                  write_count := s.write_count + data.length }, packet_type)
    else (s, packet_type)
  let s2 := { step.1 with last_packet_type := step.2 }
  if step.2 = LAST_PACKET then
    { s2 with frames := s2.frames ++ [s2.acc], cur_frame_data_len := 0, acc := [] }
  else s2

/-- `URBDesc::frame_add`: a first packet resets the accumulator and always
proceeds; otherwise, if the previous packet was a discard, only a last
packet is recorded (recovery, with no write and no enqueue), and if the
previous packet was a last packet nothing happens at all. -/
def frame_add (s : URBState) (packet_type : GspcaPacketType)
    (data : List Nat) : URBState :=
  if packet_type = FIRST_PACKET then
    frame_add_body { s with cur_frame_data_len := 0, acc := [] } packet_type data
  else
    match s.last_packet_type with
    | DISCARD_PACKET =>
        if packet_type = LAST_PACKET then
          { s with last_packet_type := LAST_PACKET, cur_frame_data_len := 0, acc := [] }
        else s
    | LAST_PACKET => s
    | _ => frame_add_body s packet_type data

/-- The little-endian 32-bit presentation timestamp of a unit:
`(data[5] << 24) | (data[4] << 16) | (data[3] << 8) | data[2]`. -/
def pts_of (d : List Nat) : Nat :=
  ((d.getD 5 0) <<< 24) ||| ((d.getD 4 0) <<< 16) ||| ((d.getD 3 0) <<< 8) ||| d.getD 2 0

/-- The toggle ("frame id") bit of a unit: bit 0 of the flag byte
(`UVC_STREAM_FID`), as the 0/1 value the code stores in `this_fid`. -/
def fid_of (d : List Nat) : Nat :=
  if (d.getD 1 0).testBit 0 then 1 else 0

/-- Header validity as checked by `pkt_scan` before boundary detection:
the header-length byte is 12, the unit holds at least the 12 header bytes,
the error bit (`UVC_STREAM_ERR`, bit 6) is clear and the
timestamp-present bit (`UVC_STREAM_PTS`, bit 2) is set. -/
def headerOk (d : List Nat) : Prop :=
  d.headD 0 = 12 ∧ 12 ≤ d.length ∧
  (d.getD 1 0).testBit 6 = false ∧ (d.getD 1 0).testBit 2 = true

instance (d : List Nat) : Decidable (headerOk d) := by
  unfold headerOk
  infer_instance

/-- One iteration of the loop body of `URBDesc::pkt_scan`, processing one
protocol unit `d` (the current chunk; its length plays the role of the
local `len`). -/
def pkt_scan_unit (s : URBState) (d : List Nat) : URBState :=
  if d.headD 0 ≠ 12 ∨ d.length < 12 then
    frame_add s DISCARD_PACKET []
  else if (d.getD 1 0).testBit 6 then
    frame_add s DISCARD_PACKET []
  else if ¬ (d.getD 1 0).testBit 2 then
    frame_add s DISCARD_PACKET []
  else if pts_of d ≠ s.last_pts ∨ fid_of d ≠ s.last_fid then
    let s1 := if s.last_packet_type = INTER_PACKET then frame_add s LAST_PACKET [] else s
    let s2 := { s1 with last_pts := pts_of d, last_fid := fid_of d }
    frame_add s2 FIRST_PACKET (d.drop 12)
  else if (d.getD 1 0).testBit 1 then
    let s1 := { s with last_pts := 0 }
    if s1.cur_frame_data_len + (d.length - 12) ≠ s1.frame_size then
      frame_add s1 DISCARD_PACKET []
    else
      frame_add s1 LAST_PACKET (d.drop 12)
  else
    frame_add s INTER_PACKET (d.drop 12)

/-- The do-while loop of `URBDesc::pkt_scan`: each iteration takes a chunk
of `min remaining 2048` bytes (`payload_len = 2048` for bulk transfers)
and processes it as one unit; the loop repeats while bytes remain. -/
def pkt_scan_loop (s : URBState) (data : List Nat) (remaining : Nat) : URBState :=
  let len := min remaining 2048
  let s1 := pkt_scan_unit s (data.take len)
  if h : 0 < remaining - len then
    pkt_scan_loop s1 (data.drop len) (remaining - len)
  else s1
termination_by remaining
decreasing_by
  have hle : min remaining 2048 ≤ remaining := Nat.min_le_left _ _
  omega

/-- `URBDesc::pkt_scan` on a transfer of `len` bytes. -/
def pkt_scan (s : URBState) (data : List Nat) (len : Nat) : URBState :=
  pkt_scan_loop s data len

/-! ### Evaluation lemmas for `frame_add` and `pkt_scan_unit` -/

lemma frame_add_first (s : URBState) (data : List Nat)
    (hfit : data.length ≤ s.frame_size) :
    frame_add s FIRST_PACKET data =
      { s with last_packet_type := FIRST_PACKET,
               cur_frame_data_len := data.length,
               acc := data,
               write_count := s.write_count + data.length } := by
  by_cases h0 : 0 < data.length
  · have hno : ¬ s.frame_size < data.length := by omega
    simp [frame_add, frame_add_body, h0, hno]
  · have hd : data = [] := by
      cases data with
      | nil => rfl
      | cons a l => simp at h0
    subst hd
    simp [frame_add, frame_add_body]

lemma frame_add_inter (s : URBState) (data : List Nat)
    (hlast : s.last_packet_type = FIRST_PACKET ∨ s.last_packet_type = INTER_PACKET)
    (hfit : s.cur_frame_data_len + data.length ≤ s.frame_size) :
    frame_add s INTER_PACKET data =
      { s with last_packet_type := INTER_PACKET,
               cur_frame_data_len := s.cur_frame_data_len + data.length,
               acc := s.acc ++ data,
               write_count := s.write_count + data.length } := by
  have hno : ¬ s.frame_size < s.cur_frame_data_len + data.length := by omega
  by_cases h0 : 0 < data.length
  · rcases hlast with hl | hl <;> simp [frame_add, frame_add_body, hl, h0, hno]
  · have hd : data = [] := by
      cases data with
      | nil => rfl
      | cons a l => simp at h0
    subst hd
    rcases hlast with hl | hl <;> simp [frame_add, frame_add_body, hl]

lemma frame_add_last (s : URBState) (data : List Nat)
    (hlast : s.last_packet_type = FIRST_PACKET ∨ s.last_packet_type = INTER_PACKET)
    (hfit : s.cur_frame_data_len + data.length ≤ s.frame_size) :
    frame_add s LAST_PACKET data =
      { s with last_packet_type := LAST_PACKET,
               cur_frame_data_len := 0,
               acc := [],
               write_count := s.write_count + data.length,
               frames := s.frames ++ [s.acc ++ data] } := by
  have hno : ¬ s.frame_size < s.cur_frame_data_len + data.length := by omega
  by_cases h0 : 0 < data.length
  · rcases hlast with hl | hl <;> simp [frame_add, frame_add_body, hl, h0, hno]
  · have hd : data = [] := by
      cases data with
      | nil => rfl
      | cons a l => simp at h0
    subst hd
    rcases hlast with hl | hl <;> simp [frame_add, frame_add_body, hl]

lemma frame_add_last_from_discard (s : URBState) (data : List Nat)
    (hlast : s.last_packet_type = DISCARD_PACKET) :
    frame_add s LAST_PACKET data =
      { s with last_packet_type := LAST_PACKET, cur_frame_data_len := 0, acc := [] } := by
  simp [frame_add, hlast]

lemma frame_add_after_last (s : URBState) (pt : GspcaPacketType) (data : List Nat)
    (hlast : s.last_packet_type = LAST_PACKET) (hpt : pt ≠ FIRST_PACKET) :
    frame_add s pt data = s := by
  simp [frame_add, hlast, hpt]

lemma frame_add_discard_from_discard (s : URBState) (data : List Nat)
    (hlast : s.last_packet_type = DISCARD_PACKET) :
    frame_add s DISCARD_PACKET data = s := by
  simp [frame_add, hlast]

lemma frame_add_discard_empty (s : URBState) :
    (frame_add s DISCARD_PACKET []).frames = s.frames ∧
    (frame_add s DISCARD_PACKET []).write_count = s.write_count ∧
    (frame_add s DISCARD_PACKET []).acc = s.acc ∧
    (frame_add s DISCARD_PACKET []).cur_frame_data_len = s.cur_frame_data_len ∧
    (frame_add s DISCARD_PACKET []).last_pts = s.last_pts ∧
    (frame_add s DISCARD_PACKET []).last_fid = s.last_fid ∧
    (frame_add s DISCARD_PACKET []).frame_size = s.frame_size ∧
    ((frame_add s DISCARD_PACKET []).last_packet_type = DISCARD_PACKET ∨
      (frame_add s DISCARD_PACKET []).last_packet_type = s.last_packet_type) := by
  cases hl : s.last_packet_type <;> simp [frame_add, frame_add_body, hl]

lemma pkt_scan_unit_bad_header (s : URBState) (d : List Nat)
    (h : d.headD 0 ≠ 12 ∨ d.length < 12) :
    pkt_scan_unit s d = frame_add s DISCARD_PACKET [] := by
  unfold pkt_scan_unit
  rw [if_pos h]

lemma pkt_scan_unit_boundary (s : URBState) (d : List Nat)
    (hok : headerOk d)
    (hb : pts_of d ≠ s.last_pts ∨ fid_of d ≠ s.last_fid) :
    pkt_scan_unit s d =
      frame_add
        { (if s.last_packet_type = INTER_PACKET then frame_add s LAST_PACKET [] else s) with
          last_pts := pts_of d, last_fid := fid_of d }
        FIRST_PACKET (d.drop 12) := by
  obtain ⟨h1, h2, h3, h4⟩ := hok
  have h1' : d.head?.getD 0 = 12 := by
    cases d with
    | nil => simp at h2
    | cons a l => simpa [List.headD] using h1
  have h2' : ¬ d.length < 12 := by omega
  simp only [List.getD_eq_getElem?_getD] at h3 h4
  simp [pkt_scan_unit, h1', h2', h3, h4, hb]

lemma pkt_scan_unit_eof (s : URBState) (d : List Nat)
    (hok : headerOk d)
    (hpts : pts_of d = s.last_pts) (hfid : fid_of d = s.last_fid)
    (heof : (d.getD 1 0).testBit 1 = true) :
    pkt_scan_unit s d =
      if s.cur_frame_data_len + (d.length - 12) ≠ s.frame_size then
        frame_add { s with last_pts := 0 } DISCARD_PACKET []
      else
        frame_add { s with last_pts := 0 } LAST_PACKET (d.drop 12) := by
  obtain ⟨h1, h2, h3, h4⟩ := hok
  have h1' : d.head?.getD 0 = 12 := by
    cases d with
    | nil => simp at h2
    | cons a l => simpa [List.headD] using h1
  have h2' : ¬ d.length < 12 := by omega
  simp only [List.getD_eq_getElem?_getD] at h3 h4 heof
  simp [pkt_scan_unit, h1', h2', h3, h4, hpts, hfid, heof]

lemma pkt_scan_unit_inter (s : URBState) (d : List Nat)
    (hok : headerOk d)
    (hpts : pts_of d = s.last_pts) (hfid : fid_of d = s.last_fid)
    (heof : (d.getD 1 0).testBit 1 = false) :
    pkt_scan_unit s d = frame_add s INTER_PACKET (d.drop 12) := by
  obtain ⟨h1, h2, h3, h4⟩ := hok
  have h1' : d.head?.getD 0 = 12 := by
    cases d with
    | nil => simp at h2
    | cons a l => simpa [List.headD] using h1
  have h2' : ¬ d.length < 12 := by omega
  simp only [List.getD_eq_getElem?_getD] at h3 h4 heof
  simp [pkt_scan_unit, h1', h2', h3, h4, hpts, hfid, heof]

lemma frame_add_last_empty (s : URBState)
    (hlast : s.last_packet_type = FIRST_PACKET ∨ s.last_packet_type = INTER_PACKET) :
    frame_add s LAST_PACKET [] =
      { s with last_packet_type := LAST_PACKET,
               cur_frame_data_len := 0,
               acc := [],
               frames := s.frames ++ [s.acc] } := by
  rcases hlast with hl | hl <;> simp [frame_add, frame_add_body, hl]

lemma frame_add_discard_not_inter (s : URBState) :
    (frame_add s DISCARD_PACKET []).last_packet_type ≠ INTER_PACKET := by
  cases hl : s.last_packet_type <;> simp [frame_add, frame_add_body, hl]

/-- C5: a unit whose timestamp or toggle differs from the previous unit's,
arriving while the previous unit was classified middle (`INTER_PACKET`),
first force-finalizes the in-progress frame as last with an empty payload
(one `Enqueue` with exactly the accumulated content) and then starts a new
frame classified first whose content is this unit's payload (bytes 12
onward). -/
theorem pkt_scan_boundary_force_finalize (s : URBState) (d : List Nat)
    (hok : headerOk d)
    (hb : pts_of d ≠ s.last_pts ∨ fid_of d ≠ s.last_fid)
    (hmid : s.last_packet_type = INTER_PACKET)
    (hfit : d.length - 12 ≤ s.frame_size) :
    (pkt_scan_unit s d).frames = s.frames ++ [s.acc] ∧
    (pkt_scan_unit s d).last_packet_type = FIRST_PACKET ∧
    (pkt_scan_unit s d).acc = d.drop 12 ∧
    (pkt_scan_unit s d).cur_frame_data_len = d.length - 12 ∧
    (pkt_scan_unit s d).last_pts = pts_of d ∧
    (pkt_scan_unit s d).last_fid = fid_of d := by
  have h1 := pkt_scan_unit_boundary s d hok hb
  rw [if_pos hmid] at h1
  rw [frame_add_last_empty s (Or.inr hmid)] at h1
  have hfit2 : (d.drop 12).length ≤
      ({ { s with last_packet_type := LAST_PACKET, cur_frame_data_len := 0,
                  acc := [], frames := s.frames ++ [s.acc] } with
            last_pts := pts_of d, last_fid := fid_of d } : URBState).frame_size := by
    simpa using hfit
  rw [frame_add_first _ _ hfit2] at h1
  rw [h1]
  simp

/-- C6: a unit with the end-of-frame bit set and unchanged timestamp and
toggle finalizes and enqueues the frame only if the accumulated length
plus the unit's payload length equals the configured frame size exactly;
on a mismatch the unit is classified discard (`frame_add` with
`DISCARD_PACKET`) and nothing is enqueued. -/
theorem pkt_scan_eof_size_check (s : URBState) (d : List Nat)
    (hok : headerOk d)
    (hpts : pts_of d = s.last_pts) (hfid : fid_of d = s.last_fid)
    (heof : (d.getD 1 0).testBit 1 = true) :
    (s.cur_frame_data_len + (d.length - 12) ≠ s.frame_size →
      pkt_scan_unit s d = frame_add { s with last_pts := 0 } DISCARD_PACKET [] ∧
      (pkt_scan_unit s d).frames = s.frames) ∧
    ((pkt_scan_unit s d).frames ≠ s.frames →
      s.cur_frame_data_len + (d.length - 12) = s.frame_size) := by
  have h := pkt_scan_unit_eof s d hok hpts hfid heof
  by_cases hsz : s.cur_frame_data_len + (d.length - 12) = s.frame_size
  · exact ⟨fun hne => absurd hsz hne, fun _ => hsz⟩
  · rw [if_pos hsz] at h
    have hfr : (pkt_scan_unit s d).frames = s.frames := by
      rw [h]
      have := (frame_add_discard_empty { s with last_pts := 0 }).1
      simpa using this
    exact ⟨fun _ => ⟨h, hfr⟩, fun hne => absurd hfr hne⟩

/-- C10: an end-of-frame unit with unchanged timestamp and toggle zeroes
the stored `last_pts` before the size check; hence even when that unit is
discarded for a size mismatch, any immediately following valid unit with a
nonzero timestamp is treated as a frame boundary and starts a new frame
classified first — whether or not its timestamp equals the discarded
frame's. -/
theorem pkt_scan_eof_resets_pts (s : URBState) (d d2 : List Nat)
    (hok : headerOk d)
    (hpts : pts_of d = s.last_pts) (hfid : fid_of d = s.last_fid)
    (heof : (d.getD 1 0).testBit 1 = true)
    (hsz : s.cur_frame_data_len + (d.length - 12) ≠ s.frame_size)
    (hok2 : headerOk d2) (hpts2 : pts_of d2 ≠ 0)
    (hfit2 : d2.length - 12 ≤ s.frame_size) :
    (pkt_scan_unit s d).last_pts = 0 ∧
    (pkt_scan_unit (pkt_scan_unit s d) d2).last_packet_type = FIRST_PACKET ∧
    (pkt_scan_unit (pkt_scan_unit s d) d2).acc = d2.drop 12 ∧
    (pkt_scan_unit (pkt_scan_unit s d) d2).frames = (pkt_scan_unit s d).frames := by
  have h1 := pkt_scan_unit_eof s d hok hpts hfid heof
  rw [if_pos hsz] at h1
  have hd := frame_add_discard_empty { s with last_pts := 0 }
  have hpts1 : (pkt_scan_unit s d).last_pts = 0 := by
    rw [h1]
    simpa using hd.2.2.2.2.1
  have hfs1 : (pkt_scan_unit s d).frame_size = s.frame_size := by
    rw [h1]
    simpa using hd.2.2.2.2.2.2.1
  have hni : (pkt_scan_unit s d).last_packet_type ≠ INTER_PACKET := by
    rw [h1]
    exact frame_add_discard_not_inter _
  have h2 := pkt_scan_unit_boundary (pkt_scan_unit s d) d2 hok2
    (Or.inl (by rw [hpts1]; exact hpts2))
  rw [if_neg hni] at h2
  have hfit3 : (d2.drop 12).length ≤
      ({ pkt_scan_unit s d with last_pts := pts_of d2, last_fid := fid_of d2 } : URBState).frame_size := by
    simpa [hfs1] using hfit2
  rw [frame_add_first _ _ hfit3] at h2
  rw [h2]
  simpa using hpts1

/-! ### Discard suppression -/

lemma frame_add_inter_from_discard (s : URBState) (data : List Nat)
    (hl : s.last_packet_type = DISCARD_PACKET) :
    frame_add s INTER_PACKET data = s := by
  simp [frame_add, hl]

lemma pkt_scan_unit_not_ok (s : URBState) (d : List Nat) (h : ¬ headerOk d) :
    pkt_scan_unit s d = frame_add s DISCARD_PACKET [] := by
  by_cases h1 : d.headD 0 ≠ 12 ∨ d.length < 12
  · exact pkt_scan_unit_bad_header s d h1
  · push_neg at h1
    obtain ⟨h1a, h1b⟩ := h1
    unfold pkt_scan_unit
    rw [if_neg (by push_neg; exact ⟨h1a, h1b⟩)]
    by_cases h2 : (d.getD 1 0).testBit 6 = true
    · rw [if_pos h2]
    · rw [if_neg h2]
      by_cases h3 : (d.getD 1 0).testBit 2 = true
      · exact absurd ⟨h1a, h1b, by simpa using h2, h3⟩ h
      · rw [if_pos h3]

/-- Predicate: unit `d` passes all header checks and differs from the
stored timestamp or toggle, so `pkt_scan` takes the new-frame branch and
classifies it first. -/
def startsFrame (s : URBState) (d : List Nat) : Prop :=
  headerOk d ∧ (pts_of d ≠ s.last_pts ∨ fid_of d ≠ s.last_fid)

instance (s : URBState) (d : List Nat) : Decidable (startsFrame s d) := by
  unfold startsFrame
  infer_instance

/-- Process a list of units in order (each already unit-sized). -/
def scanUnits (s : URBState) (ds : List (List Nat)) : URBState :=
  ds.foldl pkt_scan_unit s

/-- Holds when no unit of `ds`, processed in order from `s`, takes the
new-frame branch (none is classified first). -/
def noFrameStart : URBState → List (List Nat) → Prop
  | _, [] => True
  | s, d :: ds => ¬ startsFrame s d ∧ noFrameStart (pkt_scan_unit s d) ds

instance instDecNoFrameStart :
    (s : URBState) → (ds : List (List Nat)) → Decidable (noFrameStart s ds)
  | _, [] => Decidable.isTrue trivial
  | s, d :: ds =>
      have : Decidable (noFrameStart (pkt_scan_unit s d) ds) :=
        instDecNoFrameStart (pkt_scan_unit s d) ds
      by
        unfold noFrameStart
        infer_instance

lemma pkt_scan_unit_suppressed (s : URBState) (d : List Nat)
    (hl : s.last_packet_type = DISCARD_PACKET ∨ s.last_packet_type = LAST_PACKET)
    (hns : ¬ startsFrame s d) :
    (pkt_scan_unit s d).write_count = s.write_count ∧
    (pkt_scan_unit s d).frames = s.frames ∧
    ((pkt_scan_unit s d).last_packet_type = DISCARD_PACKET ∨
      (pkt_scan_unit s d).last_packet_type = LAST_PACKET) := by
  by_cases hok : headerOk d
  · by_cases hp : pts_of d = s.last_pts
    · by_cases hf : fid_of d = s.last_fid
      · by_cases heof : (d.getD 1 0).testBit 1 = true
        · have h := pkt_scan_unit_eof s d hok hp hf heof
          by_cases hsz : s.cur_frame_data_len + (d.length - 12) ≠ s.frame_size
          · rw [if_pos hsz] at h
            rw [h]
            have hd := frame_add_discard_empty { s with last_pts := 0 }
            refine ⟨by simpa using hd.2.1, by simpa using hd.1, ?_⟩
            rcases hd.2.2.2.2.2.2.2 with h8 | h8
            · exact Or.inl h8
            · rw [h8]
              simpa using hl
          · rw [if_neg hsz] at h
            rcases hl with hD | hL
            · rw [frame_add_last_from_discard _ _ (by simpa using hD)] at h
              rw [h]
              simp
            · rw [frame_add_after_last _ _ _ (by simpa using hL) (by simp)] at h
              rw [h]
              simpa using Or.inr hL
        · have h := pkt_scan_unit_inter s d hok hp hf (by simpa using heof)
          rcases hl with hD | hL
          · rw [frame_add_inter_from_discard _ _ hD] at h
            rw [h]
            exact ⟨rfl, rfl, Or.inl hD⟩
          · rw [frame_add_after_last _ _ _ hL (by simp)] at h
            rw [h]
            exact ⟨rfl, rfl, Or.inr hL⟩
      · exact absurd ⟨hok, Or.inr hf⟩ hns
    · exact absurd ⟨hok, Or.inl hp⟩ hns
  · rw [pkt_scan_unit_not_ok s d hok]
    have hd := frame_add_discard_empty s
    refine ⟨hd.2.1, hd.1, ?_⟩
    rcases hd.2.2.2.2.2.2.2 with h8 | h8
    · exact Or.inl h8
    · rw [h8]
      exact hl

lemma scanUnits_suppressed (ds : List (List Nat)) (s : URBState)
    (hl : s.last_packet_type = DISCARD_PACKET ∨ s.last_packet_type = LAST_PACKET)
    (hns : noFrameStart s ds) :
    (scanUnits s ds).write_count = s.write_count ∧
    (scanUnits s ds).frames = s.frames ∧
    ((scanUnits s ds).last_packet_type = DISCARD_PACKET ∨
      (scanUnits s ds).last_packet_type = LAST_PACKET) := by
  induction ds generalizing s with
  | nil => exact ⟨rfl, rfl, hl⟩
  | cons d ds ih =>
      obtain ⟨hns1, hns2⟩ := hns
      have hstep := pkt_scan_unit_suppressed s d hl hns1
      have hrest := ih (pkt_scan_unit s d) hstep.2.2 hns2
      refine ⟨?_, ?_, ?_⟩
      · calc (scanUnits s (d :: ds)).write_count
            = (scanUnits (pkt_scan_unit s d) ds).write_count := rfl
          _ = (pkt_scan_unit s d).write_count := hrest.1
          _ = s.write_count := hstep.1
      · calc (scanUnits s (d :: ds)).frames
            = (scanUnits (pkt_scan_unit s d) ds).frames := rfl
          _ = (pkt_scan_unit s d).frames := hrest.2.1
          _ = s.frames := hstep.2.1
      · exact hrest.2.2

/-- C7: while the scanner is in a suppressed state (previous unit
classified discard, or a terminal recovery) every following unit that does
not take the new-frame (first) branch writes no byte into the frame
accumulator and never calls `Enqueue`; and a bad-header unit (header
length byte not 12, or fewer than 12 bytes) itself contributes nothing to
any accumulator from any state. -/
theorem discard_suppresses_until_first :
    (∀ ds : List (List Nat), ∀ s : URBState,
      (s.last_packet_type = DISCARD_PACKET ∨ s.last_packet_type = LAST_PACKET) →
      noFrameStart s ds →
      (scanUnits s ds).write_count = s.write_count ∧
      (scanUnits s ds).frames = s.frames) ∧
    (∀ s : URBState, ∀ d : List Nat,
      (d.headD 0 ≠ 12 ∨ d.length < 12) →
      (pkt_scan_unit s d).write_count = s.write_count ∧
      (pkt_scan_unit s d).frames = s.frames ∧
      (pkt_scan_unit s d).acc = s.acc ∧
      (pkt_scan_unit s d).cur_frame_data_len = s.cur_frame_data_len) := by
  constructor
  · intro ds s hl hns
    exact ⟨(scanUnits_suppressed ds s hl hns).1, (scanUnits_suppressed ds s hl hns).2.1⟩
  · intro s d hbad
    rw [pkt_scan_unit_bad_header s d hbad]
    have hd := frame_add_discard_empty s
    exact ⟨hd.2.1, hd.1, hd.2.2.1, hd.2.2.2.1⟩

/-- Witness for C7: a discarding state followed by a bad-header unit and a
matching middle unit writes nothing and enqueues nothing; and a bad-header
unit leaves the accumulator untouched from a mid-frame state. -/
theorem discard_suppresses_until_first_witness :
    ((initURBState 5).last_packet_type = DISCARD_PACKET ∨
      (initURBState 5).last_packet_type = LAST_PACKET) ∧
    noFrameStart (initURBState 5) [[13, 0], [12, 4, 0, 0, 0, 0, 0, 0, 0, 0, 0, 0, 9]] ∧
    ((scanUnits (initURBState 5) [[13, 0], [12, 4, 0, 0, 0, 0, 0, 0, 0, 0, 0, 0, 9]]).write_count =
        (initURBState 5).write_count ∧
      (scanUnits (initURBState 5) [[13, 0], [12, 4, 0, 0, 0, 0, 0, 0, 0, 0, 0, 0, 9]]).frames =
        (initURBState 5).frames) ∧
    ((pkt_scan_unit ⟨INTER_PACKET, 100, 0, 2, 10, [1, 2], [], 2⟩ [13, 0]).write_count = 2 ∧
      (pkt_scan_unit ⟨INTER_PACKET, 100, 0, 2, 10, [1, 2], [], 2⟩ [13, 0]).frames = [] ∧
      (pkt_scan_unit ⟨INTER_PACKET, 100, 0, 2, 10, [1, 2], [], 2⟩ [13, 0]).acc = [1, 2] ∧
      (pkt_scan_unit ⟨INTER_PACKET, 100, 0, 2, 10, [1, 2], [], 2⟩ [13, 0]).cur_frame_data_len = 2) :=
  ⟨Or.inl rfl, by decide,
   discard_suppresses_until_first.1 _ _ (Or.inl rfl) (by decide),
   discard_suppresses_until_first.2 ⟨INTER_PACKET, 100, 0, 2, 10, [1, 2], [], 2⟩ [13, 0]
     (Or.inl (by decide))⟩

/-- Witness for C5 at a concrete mid-frame state and boundary unit. -/
theorem pkt_scan_boundary_force_finalize_witness :
    headerOk [12, 4, 5, 0, 0, 0, 0, 0, 0, 0, 0, 0, 9] ∧
    ((pkt_scan_unit ⟨INTER_PACKET, 100, 0, 2, 10, [1, 2], [], 2⟩
        [12, 4, 5, 0, 0, 0, 0, 0, 0, 0, 0, 0, 9]).frames = [[1, 2]] ∧
      (pkt_scan_unit ⟨INTER_PACKET, 100, 0, 2, 10, [1, 2], [], 2⟩
        [12, 4, 5, 0, 0, 0, 0, 0, 0, 0, 0, 0, 9]).last_packet_type = FIRST_PACKET ∧
      (pkt_scan_unit ⟨INTER_PACKET, 100, 0, 2, 10, [1, 2], [], 2⟩
        [12, 4, 5, 0, 0, 0, 0, 0, 0, 0, 0, 0, 9]).acc = [9]) :=
  have h := pkt_scan_boundary_force_finalize
    ⟨INTER_PACKET, 100, 0, 2, 10, [1, 2], [], 2⟩
    [12, 4, 5, 0, 0, 0, 0, 0, 0, 0, 0, 0, 9]
    (by decide) (Or.inl (by decide)) rfl (by decide)
  ⟨by decide, h.1, h.2.1, h.2.2.1⟩

/-- Witness for C6 at a concrete mid-frame state and a short terminal unit
(accumulated 3 + payload 1 differs from frame size 10). -/
theorem pkt_scan_eof_size_check_witness :
    headerOk [12, 6, 100, 0, 0, 0, 0, 0, 0, 0, 0, 0, 9] ∧
    ((pkt_scan_unit ⟨FIRST_PACKET, 100, 0, 3, 10, [1, 2, 3], [], 3⟩
        [12, 6, 100, 0, 0, 0, 0, 0, 0, 0, 0, 0, 9]).frames = [] ∧
      pkt_scan_unit ⟨FIRST_PACKET, 100, 0, 3, 10, [1, 2, 3], [], 3⟩
        [12, 6, 100, 0, 0, 0, 0, 0, 0, 0, 0, 0, 9] =
      frame_add ⟨FIRST_PACKET, 0, 0, 3, 10, [1, 2, 3], [], 3⟩ DISCARD_PACKET []) :=
  have h := (pkt_scan_eof_size_check
    ⟨FIRST_PACKET, 100, 0, 3, 10, [1, 2, 3], [], 3⟩
    [12, 6, 100, 0, 0, 0, 0, 0, 0, 0, 0, 0, 9]
    (by decide) (by decide) (by decide) (by decide)).1 (by decide)
  ⟨by decide, h.2, h.1⟩

/-- Witness for C10: after a size-mismatched terminal unit with timestamp
100 is discarded, a following unit with the very same timestamp 100 is
still classified first. -/
theorem pkt_scan_eof_resets_pts_witness :
    pts_of [12, 4, 100, 0, 0, 0, 0, 0, 0, 0, 0, 0, 7] ≠ 0 ∧
    ((pkt_scan_unit ⟨FIRST_PACKET, 100, 0, 3, 10, [1, 2, 3], [], 3⟩
        [12, 6, 100, 0, 0, 0, 0, 0, 0, 0, 0, 0, 9]).last_pts = 0 ∧
      (pkt_scan_unit
        (pkt_scan_unit ⟨FIRST_PACKET, 100, 0, 3, 10, [1, 2, 3], [], 3⟩
          [12, 6, 100, 0, 0, 0, 0, 0, 0, 0, 0, 0, 9])
        [12, 4, 100, 0, 0, 0, 0, 0, 0, 0, 0, 0, 7]).last_packet_type = FIRST_PACKET ∧
      (pkt_scan_unit
        (pkt_scan_unit ⟨FIRST_PACKET, 100, 0, 3, 10, [1, 2, 3], [], 3⟩
          [12, 6, 100, 0, 0, 0, 0, 0, 0, 0, 0, 0, 9])
        [12, 4, 100, 0, 0, 0, 0, 0, 0, 0, 0, 0, 7]).acc = [7]) :=
  have h := pkt_scan_eof_resets_pts
    ⟨FIRST_PACKET, 100, 0, 3, 10, [1, 2, 3], [], 3⟩
    [12, 6, 100, 0, 0, 0, 0, 0, 0, 0, 0, 0, 9]
    [12, 4, 100, 0, 0, 0, 0, 0, 0, 0, 0, 0, 7]
    (by decide) (by decide) (by decide) (by decide) (by decide)
    (by decide) (by decide) (by decide)
  ⟨by decide, h.1, h.2.1, h.2.2.1⟩

/-! ### One frame across two units (C2) -/

lemma pkt_scan_single_chunk (s : URBState) (u : List Nat)
    (h : u.length ≤ 2048) :
    pkt_scan s u u.length = pkt_scan_unit s u := by
  unfold pkt_scan
  rw [pkt_scan_loop]
  have hmin : min u.length 2048 = u.length := Nat.min_eq_left h
  simp [hmin, List.take_length]

lemma pkt_scan_two_chunks (s : URBState) (u1 u2 : List Nat)
    (h1 : u1.length = 2048) (h2 : 0 < u2.length) (h3 : u2.length ≤ 2048) :
    pkt_scan s (u1 ++ u2) (u1 ++ u2).length =
      pkt_scan_unit (pkt_scan_unit s u1) u2 := by
  unfold pkt_scan
  rw [pkt_scan_loop]
  have hlen : (u1 ++ u2).length = 2048 + u2.length := by simp [h1]
  have hmin : min (u1 ++ u2).length 2048 = 2048 := by
    rw [hlen]
    exact Nat.min_eq_right (by omega)
  have htake : (u1 ++ u2).take (min (u1 ++ u2).length 2048) = u1 := by
    rw [hmin]
    exact List.take_left' h1
  have hdrop : (u1 ++ u2).drop (min (u1 ++ u2).length 2048) = u2 := by
    rw [hmin]
    exact List.drop_left' h1
  have hrem : (u1 ++ u2).length - min (u1 ++ u2).length 2048 = u2.length := by
    rw [hmin, hlen]
    omega
  rw [htake, hdrop, hrem]
  rw [dif_pos h2]
  rw [pkt_scan_loop]
  have hmin2 : min u2.length 2048 = u2.length := Nat.min_eq_left h3
  simp [hmin2, List.take_length]

/-- C2: from a fresh reassembly state, a payload made of one full-size
unit (12-byte header with the timestamp-present flag, timestamp 100,
toggle 0, payload `P1` of 2036 bytes) followed by one terminal unit
(header with timestamp-present and end-of-frame flags, same timestamp and
toggle, payload `P2`), with `P1.length + P2.length` equal to the
configured frame size, classifies the first unit first and the second
last, and calls `Enqueue` exactly once, with accumulated frame content
`P1 ++ P2`. -/
theorem pkt_scan_reassembles_one_frame (P1 P2 : List Nat) (fsz : Nat)
    (h1 : P1.length = 2036) (h2 : P2.length ≤ 2036)
    (hfs : fsz = P1.length + P2.length) :
    (pkt_scan_unit (initURBState fsz)
        ([12, 4, 100, 0, 0, 0, 0, 0, 0, 0, 0, 0] ++ P1)).last_packet_type = FIRST_PACKET ∧
    (pkt_scan (initURBState fsz)
        (([12, 4, 100, 0, 0, 0, 0, 0, 0, 0, 0, 0] ++ P1) ++
         ([12, 6, 100, 0, 0, 0, 0, 0, 0, 0, 0, 0] ++ P2))
        ((([12, 4, 100, 0, 0, 0, 0, 0, 0, 0, 0, 0] ++ P1) ++
          ([12, 6, 100, 0, 0, 0, 0, 0, 0, 0, 0, 0] ++ P2)).length)).frames = [P1 ++ P2] ∧
    (pkt_scan (initURBState fsz)
        (([12, 4, 100, 0, 0, 0, 0, 0, 0, 0, 0, 0] ++ P1) ++
         ([12, 6, 100, 0, 0, 0, 0, 0, 0, 0, 0, 0] ++ P2))
        ((([12, 4, 100, 0, 0, 0, 0, 0, 0, 0, 0, 0] ++ P1) ++
          ([12, 6, 100, 0, 0, 0, 0, 0, 0, 0, 0, 0] ++ P2)).length)).last_packet_type =
      LAST_PACKET := by
  have hu1len : ([12, 4, 100, 0, 0, 0, 0, 0, 0, 0, 0, 0] ++ P1).length = 2048 := by
    simp [h1]
  have hu2pos : 0 < ([12, 6, 100, 0, 0, 0, 0, 0, 0, 0, 0, 0] ++ P2).length := by
    simp
  have hu2le : ([12, 6, 100, 0, 0, 0, 0, 0, 0, 0, 0, 0] ++ P2).length ≤ 2048 := by
    simp
    omega
  have hsplit := pkt_scan_two_chunks (initURBState fsz) _ _ hu1len hu2pos hu2le
  -- facts about the first unit's header
  have hok1 : headerOk ([12, 4, 100, 0, 0, 0, 0, 0, 0, 0, 0, 0] ++ P1) := by
    refine ⟨by simp, by simp, ?_, ?_⟩
    · simpa using (by decide : Nat.testBit 4 6 = false)
    · simpa using (by decide : Nat.testBit 4 2 = true)
  have hpts1 : pts_of ([12, 4, 100, 0, 0, 0, 0, 0, 0, 0, 0, 0] ++ P1) = 100 := by
    simp [pts_of]
  have hfid1 : fid_of ([12, 4, 100, 0, 0, 0, 0, 0, 0, 0, 0, 0] ++ P1) = 0 := by
    simp [fid_of]
  have hdrop1 : ([12, 4, 100, 0, 0, 0, 0, 0, 0, 0, 0, 0] ++ P1).drop 12 = P1 :=
    List.drop_left' rfl
  have hb1 : pts_of ([12, 4, 100, 0, 0, 0, 0, 0, 0, 0, 0, 0] ++ P1) ≠
      (initURBState fsz).last_pts ∨
      fid_of ([12, 4, 100, 0, 0, 0, 0, 0, 0, 0, 0, 0] ++ P1) ≠ (initURBState fsz).last_fid := by
    rw [hpts1]
    exact Or.inl (by simp [initURBState])
  -- processing the first unit yields an explicit state
  have hfit1 : (([12, 4, 100, 0, 0, 0, 0, 0, 0, 0, 0, 0] ++ P1).drop 12).length ≤
      ({ initURBState fsz with
          last_pts := pts_of ([12, 4, 100, 0, 0, 0, 0, 0, 0, 0, 0, 0] ++ P1),
          last_fid := fid_of ([12, 4, 100, 0, 0, 0, 0, 0, 0, 0, 0, 0] ++ P1) } :
        URBState).frame_size := by
    rw [hdrop1]
    simp [initURBState]
    omega
  have hs1 : pkt_scan_unit (initURBState fsz) ([12, 4, 100, 0, 0, 0, 0, 0, 0, 0, 0, 0] ++ P1) =
      (⟨FIRST_PACKET, 100, 0, 2036, fsz, P1, [], 2036⟩ : URBState) := by
    rw [pkt_scan_unit_boundary _ _ hok1 hb1]
    rw [if_neg (by simp [initURBState])]
    rw [frame_add_first _ _ hfit1]
    rw [hdrop1]
    simp [initURBState, pts_of, fid_of, h1]
  -- facts about the second unit's header
  have hok2 : headerOk ([12, 6, 100, 0, 0, 0, 0, 0, 0, 0, 0, 0] ++ P2) := by
    refine ⟨by simp, by simp, ?_, ?_⟩
    · simpa using (by decide : Nat.testBit 6 6 = false)
    · simpa using (by decide : Nat.testBit 6 2 = true)
  have hpts2 : pts_of ([12, 6, 100, 0, 0, 0, 0, 0, 0, 0, 0, 0] ++ P2) = 100 := by
    simp [pts_of]
  have hfid2 : fid_of ([12, 6, 100, 0, 0, 0, 0, 0, 0, 0, 0, 0] ++ P2) = 0 := by
    simp [fid_of]
  have heof2 : (([12, 6, 100, 0, 0, 0, 0, 0, 0, 0, 0, 0] ++ P2).getD 1 0).testBit 1 = true := by
    simpa using (by decide : Nat.testBit 6 1 = true)
  have hdrop2 : ([12, 6, 100, 0, 0, 0, 0, 0, 0, 0, 0, 0] ++ P2).drop 12 = P2 :=
    List.drop_left' rfl
  -- processing the second unit from that state finalizes the frame
  have hlen2 : ([12, 6, 100, 0, 0, 0, 0, 0, 0, 0, 0, 0] ++ P2).length = 12 + P2.length := by
    simp
    omega
  have hsz2 : ¬ ((⟨FIRST_PACKET, 100, 0, 2036, fsz, P1, [], 2036⟩ : URBState).cur_frame_data_len +
      (([12, 6, 100, 0, 0, 0, 0, 0, 0, 0, 0, 0] ++ P2).length - 12) ≠
      (⟨FIRST_PACKET, 100, 0, 2036, fsz, P1, [], 2036⟩ : URBState).frame_size) := by
    show ¬ (2036 + (([12, 6, 100, 0, 0, 0, 0, 0, 0, 0, 0, 0] ++ P2).length - 12) ≠ fsz)
    rw [hlen2]
    omega
  have hfit2 : ({ (⟨FIRST_PACKET, 100, 0, 2036, fsz, P1, [], 2036⟩ : URBState) with
        last_pts := 0 } : URBState).cur_frame_data_len +
      (([12, 6, 100, 0, 0, 0, 0, 0, 0, 0, 0, 0] ++ P2).drop 12).length ≤
      ({ (⟨FIRST_PACKET, 100, 0, 2036, fsz, P1, [], 2036⟩ : URBState) with
        last_pts := 0 } : URBState).frame_size := by
    rw [hdrop2]
    show 2036 + P2.length ≤ fsz
    omega
  have hs2 : pkt_scan_unit (⟨FIRST_PACKET, 100, 0, 2036, fsz, P1, [], 2036⟩ : URBState)
      ([12, 6, 100, 0, 0, 0, 0, 0, 0, 0, 0, 0] ++ P2) =
      (⟨LAST_PACKET, 0, 0, 0, fsz, [], [P1 ++ P2], 2036 + P2.length⟩ : URBState) := by
    rw [pkt_scan_unit_eof _ _ hok2 (by rw [hpts2]) (by rw [hfid2]) heof2]
    rw [if_neg hsz2]
    rw [frame_add_last _ _ (Or.inl rfl) hfit2]
    rw [hdrop2]
    simp
  refine ⟨?_, ?_, ?_⟩
  · rw [hs1]
  · rw [hsplit, hs1, hs2]
  · rw [hsplit, hs1, hs2]

/-- Witness for C2 with `P1` 2036 bytes of 7s, `P2 = [1, 2, 3]` and frame
size 2039. -/
theorem pkt_scan_reassembles_one_frame_witness :
    (List.replicate 2036 7).length = 2036 ∧
    (pkt_scan (initURBState 2039)
        (([12, 4, 100, 0, 0, 0, 0, 0, 0, 0, 0, 0] ++ List.replicate 2036 7) ++
         ([12, 6, 100, 0, 0, 0, 0, 0, 0, 0, 0, 0] ++ [1, 2, 3]))
        ((([12, 4, 100, 0, 0, 0, 0, 0, 0, 0, 0, 0] ++ List.replicate 2036 7) ++
          ([12, 6, 100, 0, 0, 0, 0, 0, 0, 0, 0, 0] ++ [1, 2, 3])).length)).frames =
      [List.replicate 2036 7 ++ [1, 2, 3]] :=
  ⟨by rw [List.length_replicate],
   (pkt_scan_reassembles_one_frame (List.replicate 2036 7) [1, 2, 3] 2039
     (by rw [List.length_replicate]) (by norm_num)
     (by rw [List.length_replicate]; norm_num)).2.1⟩

/-! ## Shutdown semaphore protocol -/

/-- Joint state of the shutdown protocol of `close_transfers` and the
completion callbacks: `sem` is the count of `active_transfer_sema`;
`inflight` the number of cancelled transfers whose completion callback has
not yet run (each will call `Release` exactly once); `releases` the number
of `Release` calls made by callbacks; `acquires` the number of `Acquire`
calls completed by the loop in `close_transfers`; `freed` whether
`close_transfers` has freed `transfer_buffer` and the frame queue. -/
structure ShutdownState where
  sem : Nat
  inflight : Nat
  releases : Nat
  acquires : Nat
  freed : Bool
  deriving DecidableEq, Repr

/-- One interleaved step of the shutdown protocol with `T` transfers
(`NUM_TRANSFERS` in the code): a completion callback of a pending transfer
runs and releases its permit; `close_transfers` completes one of its `T`
blocking `Acquire` calls (possible only when a permit is available, and
only before the frees); or, after all `T` acquires, `close_transfers`
frees the transfer buffer and the frame queue. -/
inductive ShutdownStep (T : Nat) : ShutdownState → ShutdownState → Prop where
  | callback (sem i r a : Nat) (f : Bool) :
      ShutdownStep T ⟨sem, i + 1, r, a, f⟩ ⟨sem + 1, i, r + 1, a, f⟩
  | acquire (sem i r a : Nat) (h : a < T) :
      ShutdownStep T ⟨sem + 1, i, r, a, false⟩ ⟨sem, i, r, a + 1, false⟩
  | free (sem i r : Nat) :
      ShutdownStep T ⟨sem, i, r, T, false⟩ ⟨sem, i, r, T, true⟩

/-- Shutdown invoked while `K` of the `T` transfers are in flight: the
other `T - K` transfers have already terminally completed, each having
released its permit into the semaphore. -/
def initShutdown (T K : Nat) : ShutdownState :=
  ⟨T - K, K, 0, 0, false⟩

/-- The invariant of the shutdown protocol. -/
def ShutdownInv (T K : Nat) (s : ShutdownState) : Prop :=
  s.sem + s.acquires = (T - K) + s.releases ∧
  s.releases + s.inflight = K ∧
  s.acquires ≤ T ∧
  (s.freed = true → s.acquires = T ∧ s.inflight = 0 ∧ s.releases = K)

lemma shutdownInv_init (T K : Nat) (hK : K ≤ T) :
    ShutdownInv T K (initShutdown T K) := by
  refine ⟨rfl, by simp [initShutdown], by simp [initShutdown], by simp [initShutdown]⟩

lemma shutdownInv_step (T K : Nat) (hK : K ≤ T) (s s2 : ShutdownState)
    (hs : ShutdownInv T K s) (hstep : ShutdownStep T s s2) :
    ShutdownInv T K s2 := by
  obtain ⟨h1, h2, h3, h4⟩ := hs
  cases hstep with
  | callback sem i r a f =>
      simp only [ShutdownInv] at *
      cases f with
      | false => simp_all; omega
      | true => simp at h4
  | acquire sem i r a h =>
      simp only [ShutdownInv] at *
      simp_all
      omega
  | free sem i r =>
      simp only [ShutdownInv] at *
      simp_all
      omega

lemma shutdownInv_reachable (T K : Nat) (hK : K ≤ T) (s : ShutdownState)
    (h : Relation.ReflTransGen (ShutdownStep T) (initShutdown T K) s) :
    ShutdownInv T K s := by
  induction h with
  | refl => exact shutdownInv_init T K hK
  | tail hsteps hstep ih => exact shutdownInv_step T K hK _ _ ih hstep

/-- C8: in every interleaving of the shutdown protocol started while `K`
of the `T` transfers are in flight, once `close_transfers` has freed the
buffers all `K` permits have been released and no completion callback is
still pending — the frees happen only after `close_transfers` has
completed all `T` `Acquire` calls, which requires every in-flight
callback to have run; hence no callback can touch a buffer after the
free. -/
theorem close_transfers_waits_for_callbacks (T K : Nat) (s : ShutdownState)
    (hK : K ≤ T)
    (h : Relation.ReflTransGen (ShutdownStep T) (initShutdown T K) s)
    (hfreed : s.freed = true) :
    s.acquires = T ∧ s.releases = K ∧ s.inflight = 0 := by
  have hinv := shutdownInv_reachable T K hK s h
  obtain ⟨h1, h2, h3, h4⟩ := hinv
  obtain ⟨ha, hi, hr⟩ := h4 hfreed
  exact ⟨ha, hr, hi⟩

/-- Witness for C8: a concrete interleaving with `T = 2`, `K = 1`
(acquire the free permit, the pending callback releases, acquire again,
then free). -/
theorem close_transfers_waits_for_callbacks_witness :
    (1 : Nat) ≤ 2 ∧
    ((⟨0, 0, 1, 2, true⟩ : ShutdownState).acquires = 2 ∧
      (⟨0, 0, 1, 2, true⟩ : ShutdownState).releases = 1 ∧
      (⟨0, 0, 1, 2, true⟩ : ShutdownState).inflight = 0) :=
  ⟨by decide,
   close_transfers_waits_for_callbacks 2 1 ⟨0, 0, 1, 2, true⟩ (by decide)
     (Relation.ReflTransGen.head (ShutdownStep.acquire 0 1 0 0 (by decide))
       (Relation.ReflTransGen.head (ShutdownStep.callback 0 0 0 1 false)
         (Relation.ReflTransGen.head (ShutdownStep.acquire 0 0 1 1 (by decide))
           (Relation.ReflTransGen.head (ShutdownStep.free 0 0 1)
             Relation.ReflTransGen.refl))))
     rfl⟩
